import Mathlib

/-!
Verification of the transaction core (`src/transaction.rs`).

The file shallowly embeds the `Transaction` structure, its sign/verify
protocol, and the batch verification functions. The spending-plan type,
the cryptographic primitives and the serialization primitive live in
sibling modules of the repository that are not part of the given sources;
they are modelled from the specification (opaque fixed-size byte
identifiers, an idealized signature scheme, and a deterministic injective
binary encoding with a leading tag per union variant and little-endian
fixed-width integers).
-/

/-- Modelled from the spec: a public key is an opaque fixed-length (32-byte)
identifier with value equality and a default; represented by its numeric
value below `2 ^ 256`. -/
abbrev PublicKey := Fin (2 ^ 256)

/-- Modelled from the spec: a hash (freshness marker `last_id`) is an opaque
fixed-length (32-byte) identifier with value equality and a default. -/
abbrev Hash := Fin (2 ^ 256)

/-- Modelled from the spec: an opaque point-in-time used by the `Timestamp`
condition, represented by its numeric value below `2 ^ 64`. -/
abbrev DateTime := Fin (2 ^ 64)

/-- A signed 64-bit integer, as used for token amounts (`i64` in the source). -/
abbrev I64 := {n : Int // -(2 ^ 63) ≤ n ∧ n < 2 ^ 63}

/-- `Payment { tokens, «to» }`: an unconditional transfer amount and recipient. -/
structure Payment where
  tokens : I64
  «to» : PublicKey
deriving DecidableEq

/-- `Condition`: predicate tag gating a plan branch (`plan.rs`, modelled from
the spec: tagged union over `Timestamp(point-in-time)` and
`Signature(PublicKey)`). -/
inductive Condition where
  | Timestamp (dt : DateTime)
  | Signature (key : PublicKey)
deriving DecidableEq

/-- `Plan`: tagged union over disbursement strategies (`plan.rs`, modelled
from the spec: `Pay(Payment)` and `Race((Condition, Payment), (Condition,
Payment))`). -/
inductive Plan where
  | Pay (payment : Payment)
  | Race (a : Condition × Payment) (b : Condition × Payment)
deriving DecidableEq

/-- Modelled from the spec: `Plan::verify(authorized_tokens)` is the
structural, recursive payout check: for `Pay(p)` it holds iff
`p.tokens == authorized_tokens`; for `Race(a, b)` it holds iff both
branches' payments equal `authorized_tokens`. -/
def Plan.verify : Plan → I64 → Bool
  | .Pay p, tokens => p.tokens == tokens
  | .Race a b, tokens => a.2.tokens == tokens && b.2.tokens == tokens

/-- Modelled from the spec: an idealized signature value. The external
scheme is opaque; we model a signature as either the default (all-zero,
never valid) value or a value produced by the holder of a key pair over a
specific byte sequence, which verifies exactly against that public key and
those bytes. -/
inductive Signature where
  | default
  | made (signer : PublicKey) (data : List Nat)
deriving DecidableEq

/-- Modelled from the spec: `Signature::verify(pubkey, bytes)` succeeds
exactly when the signature was produced with the key pair of `pubkey` over
exactly `bytes` (EUF-ideal primitive). -/
def Signature.verify (sig : Signature) (key : PublicKey) (data : List Nat) : Bool :=
  sig == Signature.made key data

/-- Modelled from the spec: a key pair holds signing material and derives
its public key; possession of the `KeyPair` value stands for possession of
the private key. -/
structure KeyPair where
  pubkey : PublicKey
deriving DecidableEq

/-- Modelled from the spec: `KeyPair::sign(bytes)` produces a signature by
this key pair's public key over `bytes`. -/
def KeyPair.sign (kp : KeyPair) (data : List Nat) : Signature :=
  Signature.made kp.pubkey data

/-- `k`-byte little-endian encoding of a natural number (the fixed-width
integer layout used by the binary serializer). -/
def natToLE : Nat → Nat → List Nat
  | 0, _ => []
  | k + 1, n => n % 256 :: natToLE k (n / 256)

/-- The nonnegative 64-bit representative of an `i64` value (two's
complement). -/
def i64ToNat (n : I64) : Nat := (n.val % (2 ^ 64 : Int)).toNat

/-- Little-endian 8-byte encoding of an `i64` (two's complement). -/
def encodeI64 (n : I64) : List Nat := natToLE 8 (i64ToNat n)

/-- 32-byte encoding of a public key. -/
def encodePubKey (p : PublicKey) : List Nat := natToLE 32 p.val

/-- 32-byte encoding of a hash. -/
def encodeHash (h : Hash) : List Nat := natToLE 32 h.val

/-- Modelled from the spec: deterministic encoding of a point-in-time (8
little-endian bytes). -/
def encodeDT (d : DateTime) : List Nat := natToLE 8 d.val

/-- Encoding of a `Payment`: its fields in declaration order. -/
def encodePayment (p : Payment) : List Nat :=
  encodeI64 p.tokens ++ encodePubKey p.«to»

/-- Encoding of a `Condition`: 4-byte variant tag followed by the payload. -/
def encodeCond : Condition → List Nat
  | .Timestamp dt => natToLE 4 0 ++ encodeDT dt
  | .Signature k => natToLE 4 1 ++ encodePubKey k

/-- Encoding of a `Plan`: 4-byte variant tag followed by the payload. -/
def encodePlan : Plan → List Nat
  | .Pay p => natToLE 4 0 ++ encodePayment p
  | .Race a b =>
      natToLE 4 1 ++ (encodeCond a.1 ++ (encodePayment a.2 ++
        (encodeCond b.1 ++ encodePayment b.2)))

/-- `Transaction`: sender, spending plan, authorized amount, freshness
marker, signature (`transaction.rs`). -/
structure Transaction where
  «from» : PublicKey
  plan : Plan
  tokens : I64
  last_id : Hash
  sig : Signature
deriving DecidableEq

/-- `Transaction::get_sign_data`: the serialization of the triple
`(plan, tokens, last_id)` — the canonical bytes the signature covers. -/
def Transaction.get_sign_data (t : Transaction) : List Nat :=
  encodePlan t.plan ++ (encodeI64 t.tokens ++ encodeHash t.last_id)

/-- `Transaction::sign(keypair)`: recompute the sign data from the current
fields and overwrite `sig`. -/
def Transaction.sign (t : Transaction) (keypair : KeyPair) : Transaction :=
  { t with sig := keypair.sign t.get_sign_data }

/-- `Transaction::verify`: the signature check over the sign data AND the
spending-plan payout check. -/
def Transaction.verify (t : Transaction) : Bool :=
  t.sig.verify t.«from» t.get_sign_data && t.plan.verify t.tokens

/-- `Transaction::new(from_keypair, to, tokens, last_id)`: build a signed
`Pay` transaction. -/
def Transaction.new (from_keypair : KeyPair) («to» : PublicKey) (tokens : I64)
    (last_id : Hash) : Transaction :=
  let «from» := from_keypair.pubkey
  let plan := Plan.Pay { tokens, «to» }
  let tr : Transaction :=
    { «from», plan, tokens, last_id, sig := Signature.default }
  tr.sign from_keypair

/-- `Transaction::new_on_date(from_keypair, to, dt, tokens, last_id)`: build
a signed postdated `Race` transaction. -/
def Transaction.new_on_date (from_keypair : KeyPair) («to» : PublicKey)
    (dt : DateTime) (tokens : I64) (last_id : Hash) : Transaction :=
  let «from» := from_keypair.pubkey
  let plan := Plan.Race
    (Condition.Timestamp dt, { tokens, «to» })
    (Condition.Signature «from», { tokens, «to» := «from» })
  let tr : Transaction :=
    { «from», plan, tokens, last_id, sig := Signature.default }
  tr.sign from_keypair

/-- `verify_signatures(transactions)`: AND-reduction of `tr.verify()` over
the batch (the source maps the full `verify`, not only the signature
check). -/
def verify_signatures (transactions : List Transaction) : Bool :=
  transactions.all (fun tr => tr.verify)

/-- `verify_plans(transactions)`: AND-reduction of `tr.plan.verify(tr.tokens)`
over the batch. -/
def verify_plans (transactions : List Transaction) : Bool :=
  transactions.all (fun tr => tr.plan.verify tr.tokens)

/-- `verify_transactions(transactions)`: both batch passes must succeed. -/
def verify_transactions (transactions : List Transaction) : Bool :=
  verify_signatures transactions && verify_plans transactions

/-! ### Concrete values used for evaluation -/

/-- A sample key pair. -/
def kpA : KeyPair := ⟨⟨1, by norm_num⟩⟩

/-- A sample recipient public key, distinct from `kpA.pubkey`. -/
def pkB : PublicKey := ⟨2, by norm_num⟩

/-- The zero (default) hash. -/
def hash0 : Hash := ⟨0, by norm_num⟩

/-- A second, distinct hash. -/
def hash1 : Hash := ⟨1, by norm_num⟩

/-- A sample date. -/
def dt7 : DateTime := ⟨7, by norm_num⟩

/-- Token amounts used in concrete checks. -/
def tok0 : I64 := ⟨0, by norm_num⟩

/-- One token. -/
def tok1 : I64 := ⟨1, by norm_num⟩

/-- Two tokens. -/
def tok2 : I64 := ⟨2, by norm_num⟩

/-- Forty-two tokens. -/
def tok42 : I64 := ⟨42, by norm_num⟩

/-- A transaction whose signature is valid (it was signed over the current
field values) but whose plan pays 2 tokens while the transaction authorizes
only 1: the signature check passes and the plan check fails. -/
def badPlanTx : Transaction :=
  Transaction.sign
    { «from» := kpA.pubkey, plan := Plan.Pay { tokens := tok2, «to» := pkB },
      tokens := tok1, last_id := hash0, sig := Signature.default } kpA

/-- A validly signed 42-token payment used as tamper-witness base. -/
def txW : Transaction := Transaction.new kpA pkB tok42 hash0

/-- An unsigned sample transaction. -/
def txC4a : Transaction :=
  { «from» := kpA.pubkey, plan := Plan.Pay { tokens := tok1, «to» := pkB },
    tokens := tok1, last_id := hash0, sig := Signature.default }

/-- The same transaction with different `from` and `sig` fields. -/
def txC4b : Transaction :=
  { txC4a with «from» := pkB, sig := Signature.made pkB [] }

/-- A 1-token transaction whose `Pay` plan was bumped to pay 2 (overspend). -/
def txPayMore : Transaction :=
  { Transaction.new kpA pkB tok1 hash0 with
    plan := Plan.Pay { tokens := tok2, «to» := pkB } }

/-- A 1-token transaction whose `Pay` plan was dropped to pay 0 (underspend). -/
def txPayLess : Transaction :=
  { Transaction.new kpA pkB tok1 hash0 with
    plan := Plan.Pay { tokens := tok0, «to» := pkB } }

/-! ### Injectivity of the sign-data encoding -/

lemma natToLE_length (k n : Nat) : (natToLE k n).length = k := by
  induction k generalizing n with
  | zero => rfl
  | succ k ih => simp [natToLE, ih]

lemma natToLE_inj {k m n : Nat} (hm : m < 256 ^ k) (hn : n < 256 ^ k)
    (h : natToLE k m = natToLE k n) : m = n := by
  induction k generalizing m n with
  | zero => simp at hm hn; omega
  | succ k ih =>
    simp only [natToLE, List.cons.injEq] at h
    obtain ⟨h1, h2⟩ := h
    have hm' : m / 256 < 256 ^ k := by
      rw [Nat.div_lt_iff_lt_mul (by norm_num : 0 < 256)]
      calc m < 256 ^ (k + 1) := hm
        _ = 256 ^ k * 256 := pow_succ 256 k
    have hn' : n / 256 < 256 ^ k := by
      rw [Nat.div_lt_iff_lt_mul (by norm_num : 0 < 256)]
      calc n < 256 ^ (k + 1) := hn
        _ = 256 ^ k * 256 := pow_succ 256 k
    have := ih hm' hn' h2
    omega

lemma natToLE_append_inj {k m n : Nat} {r r' : List Nat}
    (hm : m < 256 ^ k) (hn : n < 256 ^ k)
    (h : natToLE k m ++ r = natToLE k n ++ r') : m = n ∧ r = r' := by
  have hl : (natToLE k m).length = (natToLE k n).length := by
    simp [natToLE_length]
  obtain ⟨h1, h2⟩ := List.append_inj h hl
  exact ⟨natToLE_inj hm hn h1, h2⟩

lemma i64ToNat_lt (n : I64) : i64ToNat n < 2 ^ 64 := by
  have h1 : n.val % (2 ^ 64 : Int) < 2 ^ 64 :=
    Int.emod_lt_of_pos _ (by norm_num)
  unfold i64ToNat
  omega

lemma i64ToNat_inj {m n : I64} (h : i64ToNat m = i64ToNat n) : m = n := by
  obtain ⟨hm1, hm2⟩ := m.property
  obtain ⟨hn1, hn2⟩ := n.property
  unfold i64ToNat at h
  apply Subtype.ext
  simp only [show ((2 : Int) ^ 64) = 18446744073709551616 from by norm_num,
    show ((2 : Int) ^ 63) = 9223372036854775808 from by norm_num] at h hm1 hm2 hn1 hn2
  omega

lemma encodeI64_append_inj {m n : I64} {r r' : List Nat}
    (h : encodeI64 m ++ r = encodeI64 n ++ r') : m = n ∧ r = r' := by
  have hm := i64ToNat_lt m
  have hn := i64ToNat_lt n
  have e : (256 : Nat) ^ 8 = 2 ^ 64 := by norm_num
  unfold encodeI64 at h
  obtain ⟨h1, h2⟩ := natToLE_append_inj (by omega) (by omega) h
  exact ⟨i64ToNat_inj h1, h2⟩

lemma encodePubKey_append_inj {p q : PublicKey} {r r' : List Nat}
    (h : encodePubKey p ++ r = encodePubKey q ++ r') : p = q ∧ r = r' := by
  have hp := p.isLt
  have hq := q.isLt
  have e : (256 : Nat) ^ 32 = 2 ^ 256 := by norm_num
  unfold encodePubKey at h
  obtain ⟨h1, h2⟩ := natToLE_append_inj (by omega) (by omega) h
  exact ⟨Fin.ext h1, h2⟩

lemma encodeHash_append_inj {p q : Hash} {r r' : List Nat}
    (h : encodeHash p ++ r = encodeHash q ++ r') : p = q ∧ r = r' := by
  have hp := p.isLt
  have hq := q.isLt
  have e : (256 : Nat) ^ 32 = 2 ^ 256 := by norm_num
  unfold encodeHash at h
  obtain ⟨h1, h2⟩ := natToLE_append_inj (by omega) (by omega) h
  exact ⟨Fin.ext h1, h2⟩

lemma encodeDT_append_inj {p q : DateTime} {r r' : List Nat}
    (h : encodeDT p ++ r = encodeDT q ++ r') : p = q ∧ r = r' := by
  have hp := p.isLt
  have hq := q.isLt
  have e : (256 : Nat) ^ 8 = 2 ^ 64 := by norm_num
  unfold encodeDT at h
  obtain ⟨h1, h2⟩ := natToLE_append_inj (by omega) (by omega) h
  exact ⟨Fin.ext h1, h2⟩

lemma encodeHash_inj {p q : Hash} (h : encodeHash p = encodeHash q) :
    p = q := by
  have hp := p.isLt
  have hq := q.isLt
  have e : (256 : Nat) ^ 32 = 2 ^ 256 := by norm_num
  unfold encodeHash at h
  exact Fin.ext (natToLE_inj (by omega) (by omega) h)

lemma encodePayment_append_inj {p q : Payment} {r r' : List Nat}
    (h : encodePayment p ++ r = encodePayment q ++ r') : p = q ∧ r = r' := by
  unfold encodePayment at h
  rw [List.append_assoc, List.append_assoc] at h
  obtain ⟨h1, h2⟩ := encodeI64_append_inj h
  obtain ⟨h3, h4⟩ := encodePubKey_append_inj h2
  refine ⟨?_, h4⟩
  cases p; cases q; simp_all

lemma encodeCond_append_inj {c d : Condition} {r r' : List Nat}
    (h : encodeCond c ++ r = encodeCond d ++ r') : c = d ∧ r = r' := by
  have e0 : natToLE 4 0 = [0, 0, 0, 0] := rfl
  have e1 : natToLE 4 1 = [1, 0, 0, 0] := rfl
  cases c <;> cases d
  case Timestamp.Timestamp dt dt' =>
    simp [encodeCond, e0] at h
    obtain ⟨h1, h2⟩ := encodeDT_append_inj h
    exact ⟨by rw [h1], h2⟩
  case Timestamp.Signature dt k => simp [encodeCond, e0, e1] at h
  case Signature.Timestamp k dt => simp [encodeCond, e0, e1] at h
  case Signature.Signature k k' =>
    simp [encodeCond, e1] at h
    obtain ⟨h1, h2⟩ := encodePubKey_append_inj h
    exact ⟨by rw [h1], h2⟩

lemma encodePlan_append_inj {p q : Plan} {r r' : List Nat}
    (h : encodePlan p ++ r = encodePlan q ++ r') : p = q ∧ r = r' := by
  have e0 : natToLE 4 0 = [0, 0, 0, 0] := rfl
  have e1 : natToLE 4 1 = [1, 0, 0, 0] := rfl
  cases p <;> cases q
  case Pay.Pay u v =>
    simp [encodePlan, e0] at h
    obtain ⟨h1, h2⟩ := encodePayment_append_inj h
    exact ⟨by rw [h1], h2⟩
  case Pay.Race u a' b' => simp [encodePlan, e0, e1] at h
  case Race.Pay a b v => simp [encodePlan, e0, e1] at h
  case Race.Race a b a' b' =>
    simp [encodePlan, e1] at h
    obtain ⟨h1, h2⟩ := encodeCond_append_inj h
    obtain ⟨h3, h4⟩ := encodePayment_append_inj h2
    obtain ⟨h5, h6⟩ := encodeCond_append_inj h4
    obtain ⟨h7, h8⟩ := encodePayment_append_inj h6
    refine ⟨?_, h8⟩
    obtain ⟨a1, a2⟩ := a; obtain ⟨b1, b2⟩ := b
    obtain ⟨a1', a2'⟩ := a'; obtain ⟨b1', b2'⟩ := b'
    simp_all

/-- Injectivity of the sign data in the covered triple: equal sign data
forces equal `plan`, `tokens` and `last_id`. -/
lemma get_sign_data_inj {t u : Transaction}
    (h : t.get_sign_data = u.get_sign_data) :
    t.plan = u.plan ∧ t.tokens = u.tokens ∧ t.last_id = u.last_id := by
  unfold Transaction.get_sign_data at h
  obtain ⟨h1, h2⟩ := encodePlan_append_inj h
  obtain ⟨h3, h4⟩ := encodeI64_append_inj h2
  exact ⟨h1, h3, encodeHash_inj h4⟩

/-! ### Helper lemmas about `verify` -/

lemma signature_verify_eq_true_iff (sig : Signature) (key : PublicKey)
    (data : List Nat) :
    sig.verify key data = true ↔ sig = Signature.made key data := by
  simp [Signature.verify]

/-- If a transaction carries a signature over its own current sign data and
another transaction reuses that signature (and sender) over a different
covered triple, verification fails. -/
lemma verify_false_of_tampered {t t' : Transaction}
    (hsig : t.sig = Signature.made t.«from» t.get_sign_data)
    (hfrom : t'.«from» = t.«from») (hs : t'.sig = t.sig)
    (hneq : ¬(t'.plan = t.plan ∧ t'.tokens = t.tokens ∧ t'.last_id = t.last_id)) :
    t'.verify = false := by
  have hfalse : Signature.verify t'.sig t'.«from» t'.get_sign_data = false := by
    rw [Bool.eq_false_iff]
    intro hc
    rw [signature_verify_eq_true_iff, hs, hsig, hfrom] at hc
    injection hc with h1 h2
    obtain ⟨p1, p2, p3⟩ := get_sign_data_inj h2
    exact hneq ⟨p1.symm, p2.symm, p3.symm⟩
  rw [Transaction.verify, hfalse, Bool.false_and]

/-- A freshly constructed `Transaction::new` always verifies: the signature
was just produced over the current sign data and the `Pay` plan's payment
amount equals the transaction's `tokens` field by construction. -/
lemma verify_new (kp : KeyPair) («to» : PublicKey) (tokens : I64)
    (last_id : Hash) :
    (Transaction.new kp «to» tokens last_id).verify = true := by
  simp [Transaction.new, Transaction.sign, Transaction.verify,
    Signature.verify, KeyPair.sign, Plan.verify, Transaction.get_sign_data]

/-! ### The claims -/

/-- C1, counterexample: `badPlanTx` passes its signature check, yet
`verify_signatures [badPlanTx]` is `false`, because the source's
`verify_signatures` maps the full `verify()` (which also checks the plan)
rather than the signature check alone. -/
theorem verify_signatures_not_signature_only :
    Signature.verify badPlanTx.sig badPlanTx.«from» badPlanTx.get_sign_data = true
    ∧ verify_signatures [badPlanTx] = false := by
  constructor <;> rfl

/-- C1, amended: `verify_signatures(transactions)` returns true iff every
transaction's full `verify()` passes, i.e. its signature check AND its
plan check both pass (not the signature check alone). -/
theorem verify_signatures_iff_all_verify (transactions : List Transaction) :
    verify_signatures transactions = true ↔
      ∀ tr ∈ transactions,
        Signature.verify tr.sig tr.«from» tr.get_sign_data = true ∧
        tr.plan.verify tr.tokens = true := by
  simp [verify_signatures, Transaction.verify, List.all_eq_true,
    Bool.and_eq_true]

/-- C2: for every batch, `verify_transactions` equals the conjunction of
`verify_signatures` and `verify_plans`. -/
theorem verify_transactions_eq_and (transactions : List Transaction) :
    verify_transactions transactions =
      (verify_signatures transactions && verify_plans transactions) := rfl

/-- C3: for a transaction that currently verifies, mutating `tokens`,
`plan`, or `last_id` to any different value without re-signing makes
`verify()` return `false`. -/
theorem tamper_invalidates_verify (t : Transaction) (h : t.verify = true) :
    (∀ x : I64, x ≠ t.tokens →
      Transaction.verify { t with tokens := x } = false) ∧
    (∀ p : Plan, p ≠ t.plan →
      Transaction.verify { t with plan := p } = false) ∧
    (∀ l : Hash, l ≠ t.last_id →
      Transaction.verify { t with last_id := l } = false) := by
  rw [Transaction.verify, Bool.and_eq_true] at h
  obtain ⟨hsig, hplan⟩ := h
  rw [signature_verify_eq_true_iff] at hsig
  refine ⟨fun x hx => ?_, fun p hp => ?_, fun l hl => ?_⟩
  · exact verify_false_of_tampered hsig rfl rfl (fun hc => hx hc.2.1)
  · exact verify_false_of_tampered hsig rfl rfl (fun hc => hp hc.1)
  · exact verify_false_of_tampered hsig rfl rfl (fun hc => hl hc.2.2)

/-- C3, witness: the concrete signed transaction `txW` verifies, and each
single-field tampering is rejected. -/
theorem tamper_invalidates_verify_witness :
    Transaction.verify { txW with tokens := tok1 } = false ∧
    Transaction.verify
      { txW with plan := Plan.Pay { tokens := tok1, «to» := pkB } } = false ∧
    Transaction.verify { txW with last_id := hash1 } = false := by
  have h := tamper_invalidates_verify txW (by decide)
  exact ⟨h.1 tok1 (by decide), h.2.1 _ (by decide), h.2.2 hash1 (by decide)⟩

/-- C4: the sign data is a function of exactly `(plan, tokens, last_id)`:
two transactions agreeing on those three fields produce identical sign
data, whatever their `from` and `sig` fields are. -/
theorem get_sign_data_noninterference (t u : Transaction)
    (hp : t.plan = u.plan) (ht : t.tokens = u.tokens)
    (hl : t.last_id = u.last_id) :
    t.get_sign_data = u.get_sign_data := by
  rw [Transaction.get_sign_data, Transaction.get_sign_data, hp, ht, hl]

/-- C4, witness: two concrete transactions differing in `from` and `sig`
but agreeing on the covered triple have identical sign data. -/
theorem get_sign_data_noninterference_witness :
    txC4a.«from» ≠ txC4b.«from» ∧ txC4a.sig ≠ txC4b.sig ∧
    txC4a.get_sign_data = txC4b.get_sign_data :=
  ⟨by decide, by decide, get_sign_data_noninterference txC4a txC4b rfl rfl rfl⟩

/-- C5: for every key pair, recipient, positive token amount and freshness
marker, `Transaction::new` produces a transaction satisfying `verify()`. -/
theorem new_verify (kp : KeyPair) («to» : PublicKey) (tokens : I64)
    (last_id : Hash) (_h : 0 < tokens.val) :
    (Transaction.new kp «to» tokens last_id).verify = true :=
  verify_new kp «to» tokens last_id

/-- C5, witness: a concrete 42-token transaction verifies. -/
theorem new_verify_witness :
    0 < tok42.val ∧ (Transaction.new kpA pkB tok42 hash0).verify = true :=
  ⟨by decide, new_verify kpA pkB tok42 hash0 (by decide)⟩

/-- C6: a transaction whose `Pay` plan's payment amount differs from the
transaction's `tokens` field never verifies (whether greater or less). -/
theorem pay_mismatch_verify_false (t : Transaction) (p : Payment)
    (hplan : t.plan = Plan.Pay p) (hne : p.tokens ≠ t.tokens) :
    t.verify = false := by
  have hfalse : (Plan.Pay p).verify t.tokens = false := by
    simp [Plan.verify, hne]
  rw [Transaction.verify, hplan, hfalse, Bool.and_false]

/-- C6, witness: a 1-token transaction whose plan pays 2 (greater) and one
whose plan pays 0 (less) both fail `verify()`. -/
theorem pay_mismatch_verify_false_witness :
    txPayMore.verify = false ∧ txPayLess.verify = false :=
  ⟨pay_mismatch_verify_false txPayMore _ rfl (by decide),
   pay_mismatch_verify_false txPayLess _ rfl (by decide)⟩

/-- C7: `Transaction::new_on_date` builds exactly the time-locked `Race`
plan — recipient branch gated by `Timestamp(dt)`, sender-refund branch
gated by `Signature(from)`, both paying exactly `tokens` — and the result
verifies. -/
theorem new_on_date_plan_and_verify (kp : KeyPair) («to» : PublicKey)
    (dt : DateTime) (tokens : I64) (last_id : Hash) :
    (Transaction.new_on_date kp «to» dt tokens last_id).plan =
      Plan.Race (Condition.Timestamp dt, { tokens, «to» })
        (Condition.Signature kp.pubkey, { tokens, «to» := kp.pubkey }) ∧
    (Transaction.new_on_date kp «to» dt tokens last_id).verify = true := by
  refine ⟨rfl, ?_⟩
  simp [Transaction.new_on_date, Transaction.sign, Transaction.verify,
    Signature.verify, KeyPair.sign, Plan.verify, Transaction.get_sign_data]

/-- C8: on the empty batch, all three batch verifiers return `true`. -/
theorem empty_batch_all_true :
    verify_signatures [] = true ∧ verify_plans [] = true ∧
      verify_transactions [] = true :=
  ⟨rfl, rfl, rfl⟩

/-- C9: `verify_transactions` coincides with `verify_signatures` alone,
because `verify_signatures` already applies each transaction's full
`verify()` (signature AND plan), so the extra `verify_plans` pass never
changes the result. -/
theorem verify_transactions_eq_verify_signatures
    (transactions : List Transaction) :
    verify_transactions transactions = verify_signatures transactions := by
  rw [verify_transactions]
  cases hvs : verify_signatures transactions
  · rw [Bool.false_and]
  · rw [Bool.true_and]
    simp only [verify_signatures, List.all_eq_true] at hvs
    simp only [verify_plans, List.all_eq_true]
    intro tr htr
    have h := hvs tr htr
    simp only [Transaction.verify, Bool.and_eq_true] at h
    exact h.2

/-- C10: `Transaction::new` performs no positivity check: for every `i64`
token amount (zero and negative included), the constructed transaction's
plan is `Pay` of exactly that amount and `verify()` returns `true`. -/
theorem new_verify_any_tokens (kp : KeyPair) («to» : PublicKey)
    (tokens : I64) (last_id : Hash) :
    (Transaction.new kp «to» tokens last_id).plan =
      Plan.Pay { tokens, «to» } ∧
    (Transaction.new kp «to» tokens last_id).verify = true :=
  ⟨rfl, verify_new kp «to» tokens last_id⟩
